import Mathlib

/-!
# Shallow embedding of `SmartPreprocessor` (src/preprocessor.py)

A `SmartPreprocessor` instance holds a pandas DataFrame and a summary
dictionary.  We model a string-typed DataFrame as an association list from
column names to lists of cells, where a cell is `na` (pandas `NaN`), a string,
or a boolean (validation flags).  Python's `str()` applied to `NaN` produces
the string "nan"; this is modelled explicitly by `strForm`.  Numeric columns
(used by the IQR outlier detector) are modelled separately as lists of
`Option ℚ` cells.
-/

namespace SmartPreprocessor

/-- Whether `needle` starts the character list `hay`. -/
def startsWithCh : List Char → List Char → Bool
  | [], _ => true
  | _ :: _, [] => false
  | a :: as, b :: bs => a == b && startsWithCh as bs

/-- Whether `needle` occurs as a contiguous run inside `hay`. -/
def occursIn (needle : List Char) : List Char → Bool
  | [] => startsWithCh needle []
  | b :: bs => startsWithCh needle (b :: bs) || occursIn needle bs

/-- Python `needle in hay` for strings: case-sensitive substring containment. -/
def containsSub (hay : String) (needle : String) : Bool :=
  occursIn needle.toList hay.toList

/-- Python `col.lower()`: lower-case a column name, as a character list. -/
def lowerName (s : String) : List Char :=
  s.toList.map Char.toLower

/-- Python `keyword in col.lower()`: keyword containment in the lower-cased
column name. -/
def keywordIn (col : String) (keyword : String) : Bool :=
  occursIn keyword.toList (lowerName col)

/-- Source: `self.phone_cols = [col for col in self.df.columns if 'phone' in col.lower()]` -/
def phone_cols (columns : List String) : List String :=
  columns.filter (fun c => keywordIn c "phone")

/-- Source: `self.email_cols = [col for col in self.df.columns if 'email' in col.lower()]` -/
def email_cols (columns : List String) : List String :=
  columns.filter (fun c => keywordIn c "email")

/-- Source: `self.date_cols = [col for col in self.df.columns if 'date' in col.lower()]` -/
def date_cols (columns : List String) : List String :=
  columns.filter (fun c => keywordIn c "date")

/-- Source: `self.website_cols = [col for col in self.df.columns if 'website' in col.lower()]` -/
def website_cols (columns : List String) : List String :=
  columns.filter (fun c => keywordIn c "website")

/-- Source: `self.zip_cols = [col for col in self.df.columns if 'zip' in col.lower()]` -/
def zip_cols (columns : List String) : List String :=
  columns.filter (fun c => keywordIn c "zip")

/-- Method `_detect_text_fields`: object-dtype columns whose lower-cased name contains
any of "name", "city", "country", "company".  The pandas dtype test is
abstracted as a predicate on column names. -/
def detect_text_fields (columns : List String) (isObjectDtype : String → Bool) :
    List String :=
  columns.filter (fun c =>
    isObjectDtype c &&
      (["name", "city", "country", "company"].any (fun x => keywordIn c x)))

/-- Modelled from the spec: the spec's matching rule assigns a column to the
phone role when its lower-cased name contains ANY of the keyword substrings
"phone", "contact", "mobile", "cell". -/
def specPhoneRole (c : String) : Bool :=
  ["phone", "contact", "mobile", "cell"].any (fun x => keywordIn c x)

/-- A cell of a string-typed DataFrame column.  `na` is pandas `NaN`; `bool`
cells arise from validation-flag columns. -/
inductive Cell where
  | na : Cell
  | str : String → Cell
  | bool : Bool → Cell
deriving DecidableEq

/-- Python `str(x)` on a cell (`str(np.nan)` is `"nan"`, `str(True)` is
`"True"`). -/
def strForm : Cell → String
  | Cell.na => "nan"
  | Cell.str s => s
  | Cell.bool b => if b then "True" else "False"

/-- Python whitespace characters stripped by `str.strip()`. -/
def isPySpace (c : Char) : Bool :=
  c == ' ' || c == '\t' || c == '\n' || c == '\r' || c == '\x0b' || c == '\x0c'

/-- Python `s.strip()`: remove leading and trailing whitespace. -/
def stripStr (s : String) : String :=
  ⟨((s.toList.dropWhile isPySpace).reverse.dropWhile isPySpace).reverse⟩

/-- A string-typed DataFrame: association list from column names to cell
columns, in insertion order. -/
abbrev STable := List (String × List Cell)

/-- The DataFrame's column names, in order. -/
def colNames (t : STable) : List String :=
  t.map Prod.fst

/-- The DataFrame's row count (all columns share it). -/
def numRows (t : STable) : Nat :=
  match t with
  | [] => 0
  | (_, cs) :: _ => cs.length

/-- Whether the DataFrame has a column of the given name. -/
def hasCol : STable → String → Bool
  | [], _ => false
  | (m, _) :: ts, name => m = name || hasCol ts name

/-- Read a column's cells (empty when the column is absent). -/
def getCol : STable → String → List Cell
  | [], _ => []
  | (m, w) :: ts, name => if m = name then w else getCol ts name

/-- Assignment `self.df[name] = vals`: replace the column in place when present,
otherwise append it at the end. -/
def setCol (t : STable) (name : String) (vals : List Cell) : STable :=
  if hasCol t name then
    t.map (fun p => if p.1 = name then (p.1, vals) else p)
  else
    t ++ [(name, vals)]

/-- The summary dictionary built up by the pipeline.  The dynamic
"Original Invalid ... in col" / "Remaining Invalid ... in col" /
"Negative Values in col" keys are kept in the `counts` association list in
insertion order. -/
structure Summary where
  original_shape : Nat × Nat
  columns_removed : List String
  duplicate_rows_dropped : Int
  validations_added : List String
  outliers_flagged : List (String × Nat)
  counts : List (String × Int)
deriving DecidableEq

/-- The preprocessor state: the working DataFrame, the role sets computed at
construction, and the summary. -/
structure State where
  df : STable
  phoneCols : List String
  emailCols : List String
  websiteCols : List String
  zipCols : List String
  summary : Summary
deriving DecidableEq

/-- Constructor `SmartPreprocessor.__init__`: copy the frame, compute the role sets from
column names, initialize the summary. -/
def init (df : STable) : State :=
  { df := df
    phoneCols := phone_cols (colNames df)
    emailCols := email_cols (colNames df)
    websiteCols := website_cols (colNames df)
    zipCols := zip_cols (colNames df)
    summary :=
      { original_shape := (numRows df, df.length)
        columns_removed := []
        duplicate_rows_dropped := 0
        validations_added := []
        outliers_flagged := []
        counts := [] } }

/-! ## Phone cleaning (`clean_phones`)

The `phonenumbers` library is external; it is modelled as an abstract
interface.  `clean_number` is the per-cell function from the source. -/

/-- Abstract interface of the `phonenumbers` library. -/
structure PhoneLib (P : Type) where
  parse : String → Option P
  is_possible_number : P → Bool
  is_valid_number : P → Bool
  format_E164 : P → String

/-- Function `clean_number` from `clean_phones`: parse `str(val)` with no default
region; keep the E.164 format when the number is both possible and valid,
otherwise produce `NaN`; a parse exception also produces `NaN`. -/
def clean_number {P : Type} (lib : PhoneLib P) (c : Cell) : Cell :=
  match lib.parse (strForm c) with
  | some p =>
      if lib.is_possible_number p && lib.is_valid_number p then
        Cell.str (lib.format_E164 p)
      else
        Cell.na
  | none => Cell.na

/-- One iteration of the `clean_phones` loop body for column `col`. -/
def cleanPhoneStep {P : Type} (lib : PhoneLib P) (st : State) (col : String) :
    State :=
  let cells := getCol st.df col
  let original_invalid := cells.countP (fun c => c == Cell.na)
  let validation_col := "Valid " ++ col
  let newCells := cells.map (clean_number lib)
  let remaining_invalid := newCells.countP (fun c => c == Cell.na)
  { st with
    df := setCol st.df col newCells
    summary :=
      { st.summary with
        counts := st.summary.counts ++
          [("Original Invalid Phones in " ++ col, (original_invalid : Int)),
           ("Remaining Invalid Phones in " ++ col, (remaining_invalid : Int))]
        validations_added := st.summary.validations_added ++ [validation_col] } }

/-- Method `clean_phones`: iterate over the phone-role columns.  Note that the body
defines `validation_col` and records it in `validations_added`, but never
assigns a `"Valid col"` column into the DataFrame. -/
def clean_phones {P : Type} (lib : PhoneLib P) (st : State) : State :=
  st.phoneCols.foldl (cleanPhoneStep lib) st

/-! ## Email / website / ZIP validation -/

/-- Per-cell email validation flag:
`validators.email(str(x).strip())`, abstracted over the validator and
coerced to `Bool` (the library's falsy failure object is `false`). -/
def emailFlagVal (emailV : String → Bool) (c : Cell) : Bool :=
  emailV (stripStr (strForm c))

/-- Count `original_invalid` of `validate_emails`: rows whose `str(x)` does not
contain "@". -/
def email_orig_invalid (cells : List Cell) : Nat :=
  cells.countP (fun c => !containsSub (strForm c) "@")

/-- Count `remaining_invalid` of `validate_emails`: the expression
`(~self.df[validation_col]).sum()`.  The flag column holds Python `True` or
the validator's falsy failure object; when every cell is valid the column is
boolean and the inverted flags sum to 0, but a failure object has no
`__invert__`, so any invalid cell gives the column object dtype and makes
unary `~` raise `TypeError`. -/
def email_remaining (emailV : String → Bool) (cells : List Cell) :
    Except String Int :=
  if (cells.map (emailFlagVal emailV)).all (fun b => b) then Except.ok 0
  else Except.error "TypeError: bad operand type for unary ~"

/-- Per-cell website validation flag: `validators.url(str(x).strip())`,
abstracted over the validator. -/
def urlFlagVal (urlV : String → Bool) (c : Cell) : Bool :=
  urlV (stripStr (strForm c))

/-- Count `original_invalid` of `validate_websites`: rows whose `str(x)` does not
start with "http". -/
def url_orig_invalid (cells : List Cell) : Nat :=
  cells.countP (fun c => !startsWithCh "http".toList (strForm c).toList)

/-- Count `remaining_invalid` of `validate_websites`: the expression
`(~self.df[validation_col]).sum()`, with the same `TypeError` on any falsy
validator-failure object as for emails. -/
def url_remaining (urlV : String → Bool) (cells : List Cell) :
    Except String Int :=
  if (cells.map (urlFlagVal urlV)).all (fun b => b) then Except.ok 0
  else Except.error "TypeError: bad operand type for unary ~"

/-- Semantics of `re.match(r'^\d{5}$', s)` on a character list: five decimal
digits, optionally followed by one final newline (Python's `$` also matches
just before a trailing newline). -/
def zipMatchCh : List Char → Bool
  | [a, b, c, d, e] =>
      a.isDigit && b.isDigit && c.isDigit && d.isDigit && e.isDigit
  | [a, b, c, d, e, f] =>
      a.isDigit && b.isDigit && c.isDigit && d.isDigit && e.isDigit && f == '\n'
  | _ => false

/-- Expression `self.df[col].astype(str).str.match(r'^\d{5}$')` applied to one cell's
string form. -/
def zipMatch (s : String) : Bool :=
  zipMatchCh s.toList

/-- Per-cell ZIP validation flag. -/
def zipFlagVal (c : Cell) : Bool :=
  zipMatch (strForm c)

/-- Count `original_invalid` of `validate_zip_codes`. -/
def zip_orig_invalid (cells : List Cell) : Nat :=
  cells.countP (fun c => !zipFlagVal c)

/-- Count `remaining_invalid` of `validate_zip_codes`: false validation flags. -/
def zip_remaining (cells : List Cell) : Nat :=
  (cells.map zipFlagVal).countP (fun b => !b)

/-- One iteration of the `validate_zip_codes` loop body for column `col`. -/
def validateZipStep (st : State) (col : String) : State :=
  let cells := getCol st.df col
  let validation_col := "Valid " ++ col
  { st with
    df := setCol st.df validation_col ((cells.map zipFlagVal).map Cell.bool)
    summary :=
      { st.summary with
        counts := st.summary.counts ++
          [("Original Invalid ZIPs in " ++ col, (zip_orig_invalid cells : Int)),
           ("Remaining Invalid ZIPs in " ++ col, (zip_remaining cells : Int))]
        validations_added := st.summary.validations_added ++ [validation_col] } }

/-- Method `validate_zip_codes`: iterate over the zip-role columns. -/
def validate_zip_codes (st : State) : State :=
  st.zipCols.foldl validateZipStep st

/-- Modelled from the spec: "valid iff the string form matches exactly 5
decimal digits". -/
def specZipValid (s : String) : Bool :=
  s.toList.length == 5 && s.toList.all Char.isDigit

/-- Five decimal digits followed by a single trailing newline: the extra case
accepted by `re.match(r'^\d{5}$', ·)` beyond `specZipValid`. -/
def zipTrailingNewline (s : String) : Bool :=
  s.toList.length == 6 && (s.toList.take 5).all Char.isDigit &&
    s.toList.getLast? == some '\n'

/-! ## Deduplication (`drop_duplicates`) -/

/-- A row-major view of the DataFrame, used by `drop_duplicates` (pandas
deduplicates at row level). -/
structure RTable where
  cols : List String
  rows : List (List Cell)
deriving DecidableEq

/-- The Python `subset` argument: `None`, a single column name, or a list of
column names. -/
inductive PySubset where
  | noneV : PySubset
  | strV : String → PySubset
  | listV : List String → PySubset
deriving DecidableEq

instance instDecEqExcept {ε α : Type} [DecidableEq ε] [DecidableEq α] :
    DecidableEq (Except ε α)
  | Except.ok a, Except.ok b =>
      if h : a = b then isTrue (congrArg Except.ok h)
      else isFalse (fun hc => h (Except.ok.inj hc))
  | Except.error e, Except.error f =>
      if h : e = f then isTrue (congrArg Except.error h)
      else isFalse (fun hc => h (Except.error.inj hc))
  | Except.ok _, Except.error _ => isFalse (fun hc => Except.noConfusion hc)
  | Except.error _, Except.ok _ => isFalse (fun hc => Except.noConfusion hc)

/-- Python truthiness of the `subset` argument. -/
def subsetTruthy : PySubset → Bool
  | PySubset.noneV => false
  | PySubset.strV s => !(s == "")
  | PySubset.listV ss => !ss.isEmpty

/-- Test `subset in self.df.columns`: a pandas `Index` membership test.  The
key is hashed before any containment check, so a string is looked up among the
column names while an unhashable list raises `TypeError`. -/
def subsetInCols (cols : List String) : PySubset → Except String Bool
  | PySubset.strV s => Except.ok (cols.contains s)
  | PySubset.listV _ => Except.error "TypeError: unhashable type: list"
  | PySubset.noneV => Except.ok false

/-- The guard `subset and subset in self.df.columns`: Python's `and`
short-circuits, so the (possibly raising) membership test runs only on a
truthy `subset`. -/
def subsetGuard (cols : List String) (sub : PySubset) : Except String Bool :=
  if subsetTruthy sub then subsetInCols cols sub else Except.ok false

/-- The deduplication key of a row: the single subset column's value when the
guard evaluated to true, otherwise the full row. -/
def pandasKey (cols : List String) (sub : PySubset) (g : Bool)
    (row : List Cell) : List Cell :=
  if g then
    match sub with
    | PySubset.strV s => [row.getD (cols.indexOf s) Cell.na]
    | _ => row
  else
    row

/-- Keep-first deduplication of rows by key, relative to already-seen keys. -/
def dropDupBy (key : List Cell → List Cell) (seen : List (List Cell)) :
    List (List Cell) → List (List Cell)
  | [] => []
  | r :: rs =>
      if key r ∈ seen then dropDupBy key seen rs
      else r :: dropDupBy key (key r :: seen) rs

/-- Method `drop_duplicates(subset)`: evaluate the guard (which raises on an
unhashable list subset), deduplicate accordingly, and record
`before - after` as `duplicate_rows_dropped`. -/
def drop_duplicates (sub : PySubset) (t : RTable) :
    Except String (RTable × Int) :=
  match subsetGuard t.cols sub with
  | Except.error e => Except.error e
  | Except.ok g =>
      let rows2 := dropDupBy (pandasKey t.cols sub g) [] t.rows
      Except.ok ({ t with rows := rows2 },
        (t.rows.length : Int) - (rows2.length : Int))

/-- Modelled from the spec: the identifier role, inferred by keyword matching
on column names (keyword "id"), a role the implementation does not compute. -/
def specIdentifierCols (columns : List String) : List String :=
  columns.filter (fun c => keywordIn c "id")

/-- Modelled from the spec: deduplicate on the combination of the
identifier-role columns when at least one exists, otherwise on full rows
(keep first occurrence). -/
def specDedupIdentifier (t : RTable) : List (List Cell) :=
  let ids := specIdentifierCols t.cols
  if ids.isEmpty then
    dropDupBy (fun r => r) [] t.rows
  else
    dropDupBy (fun r => ids.map (fun c => r.getD (t.cols.indexOf c) Cell.na)) []
      t.rows

/-- A concrete table with an identifier-named column: rows agree on "id" but
differ in "x". -/
def tC3 : RTable :=
  ⟨["id", "x"],
    [[Cell.str "1", Cell.str "a"],
     [Cell.str "1", Cell.str "b"]]⟩

/-- A concrete two-column table with one exactly-repeated row and one row that
differs only in column "b". -/
def tC9 : RTable :=
  ⟨["a", "b"],
    [[Cell.str "1", Cell.str "2"],
     [Cell.str "1", Cell.str "3"],
     [Cell.str "1", Cell.str "2"]]⟩

/-! ## Numeric quality analysis (`detect_outliers_iqr`) -/

/-- A numeric table: the numeric-role columns, cells `Option ℚ` (`none` is
`NaN`). -/
abbrev NTable := List (String × List (Option ℚ))

/-- Method `Series.quantile(q)` with the default linear interpolation: drop the
missing values, sort, and interpolate between the two nearest order
statistics at position `q * (n - 1)`.  `none` on an all-missing column. -/
def quantileLin (col : List (Option ℚ)) (q : ℚ) : Option ℚ :=
  let vals := (col.filterMap id).insertionSort (· ≤ ·)
  let n := vals.length
  if n = 0 then none
  else
    let h : ℚ := q * ((n : ℚ) - 1)
    let i : Nat := (Int.floor h).toNat
    let lo := vals.getD i 0
    let hi := vals.getD (i + 1) lo
    some (lo + (h - (i : ℚ)) * (hi - lo))

/-- The IQR outlier test for one cell (comparisons with `NaN` are false). -/
def isOutlierCell (q1 q3 : ℚ) : Option ℚ → Bool
  | none => false
  | some v =>
      decide (v < q1 - (3/2 : ℚ) * (q3 - q1)) ||
        decide (v > q3 + (3/2 : ℚ) * (q3 - q1))

/-- The per-column outlier count of `detect_outliers_iqr`. -/
def outlierCount (col : List (Option ℚ)) : Nat :=
  match quantileLin col (1/4), quantileLin col (3/4) with
  | some q1, some q3 => col.countP (isOutlierCell q1 q3)
  | _, _ => 0

/-- Method `detect_outliers_iqr`: record each numeric column's outlier count when it
is nonzero (`summary["outliers_flagged"]`). -/
def detect_outliers_iqr (t : NTable) : List (String × Nat) :=
  t.filterMap (fun p =>
    let cnt := outlierCount p.2
    if cnt > 0 then some (p.1, cnt) else none)

/-- Value `total_outliers = sum(outliers.values())` from `get_summary`. -/
def totalOutliers (flagged : List (String × Nat)) : Nat :=
  (flagged.map Prod.snd).sum

/-! ## Summary finalization (`get_summary`) -/

/-- Python `s.replace(pat, rep)`: replace every non-overlapping occurrence,
left to right.  Structured with explicit fuel (initialized to the string
length) so that it computes by reduction; each step consumes at least one
character when `pat` is nonempty. -/
def replaceChFuel : Nat → List Char → List Char → List Char → List Char
  | 0, _, _, s => s
  | Nat.succ fuel, pat, rep, s =>
      match s with
      | [] => []
      | a :: as =>
          if startsWithCh pat (a :: as) then
            rep ++ replaceChFuel fuel pat rep (as.drop (pat.length - 1))
          else
            a :: replaceChFuel fuel pat rep as

/-- Python `s.replace(pat, rep)` on strings. -/
def replaceStr (s pat rep : String) : String :=
  ⟨replaceChFuel s.toList.length pat.toList rep.toList s.toList⟩

/-- Python `round(q, 2)`: banker's rounding to two decimal places. -/
def round2 (q : ℚ) : ℚ :=
  let y := q * 100
  let f : Int := Int.floor y
  let r := y - (f : ℚ)
  let n : Int :=
    if r < 1/2 then f
    else if 1/2 < r then f + 1
    else if f % 2 = 0 then f else f + 1
  (n : ℚ) / 100

/-- One entry of the health report: the "Before", "After" and "% Change"
values. -/
structure HealthEntry where
  before : Int
  after : Int
  change : ℚ
deriving DecidableEq

/-- The health-report loop of `get_summary`: one entry per summary key
containing "Original Invalid", unconditionally; "After" falls back to 0 when
the "Remaining" key is absent; "% Change" is guarded against a zero
"Before". -/
def healthReport (counts : List (String × Int)) : List (String × HealthEntry) :=
  (counts.filter (fun kv => containsSub kv.1 "Original Invalid")).map (fun kv =>
    let afterKey := replaceStr kv.1 "Original" "Remaining"
    let b : Int := kv.2
    let a : Int := (counts.lookup afterKey).getD 0
    let change : ℚ :=
      if b ≠ 0 then round2 (((b : ℚ) - (a : ℚ)) / (b : ℚ) * 100) else 0
    (replaceStr kv.1 "Original " "", ⟨b, a, change⟩))

/-- The derived fields computed by `get_summary`. -/
structure Report where
  final_shape : Nat × Nat
  rows_dropped : Int
  percent_rows_dropped : ℚ
  invalid_counts : List (String × Int)
  negative_counts : List (String × Int)
  outliers : List (String × Nat)
  total_outliers : Nat
  health_report : List (String × HealthEntry)
deriving DecidableEq

/-- Method `get_summary`: finalize the summary.  `percent_rows_dropped` is guarded by
`if original_rows`; the key groups are selected by substring patterns over the
summary keys. -/
def get_summary (st : State) : Report :=
  let original_rows := st.summary.original_shape.1
  let final_rows := numRows st.df
  let rows_dropped : Int := (original_rows : Int) - (final_rows : Int)
  let pct : ℚ :=
    if original_rows ≠ 0 then ((rows_dropped : ℚ) / (original_rows : ℚ)) * 100
    else 0
  { final_shape := (final_rows, st.df.length)
    rows_dropped := rows_dropped
    percent_rows_dropped := round2 pct
    invalid_counts :=
      st.summary.counts.filter (fun kv => containsSub kv.1 "Remaining Invalid")
    negative_counts :=
      st.summary.counts.filter (fun kv => containsSub kv.1 "Negative")
    outliers := st.summary.outliers_flagged
    total_outliers := totalOutliers st.summary.outliers_flagged
    health_report := healthReport st.summary.counts }

/-! ## Theorems -/

/-- C1 (counterexample): the spec's multi-keyword matching rule puts a column
named "Contact" in the phone role, but at construction the implementation's
phone role set for the one-column table ["Contact"] is empty: only the single
keyword "phone" is matched. -/
theorem c1_counterexample :
    specPhoneRole "Contact" = true ∧
      (init [("Contact", [Cell.str "5551234"])]).phoneCols = [] := by
  decide

/-- C1 (amended): for the phone, email, date, website and zip roles the
classifier matches exactly one keyword each, namely the role's own name: a
column belongs to the role set iff its lower-cased name contains that single
keyword.  (Only the text role matches a list of several keywords.) -/
theorem c1_amended (columns : List String) (c : String) :
    (c ∈ phone_cols columns ↔ c ∈ columns ∧ keywordIn c "phone" = true) ∧
    (c ∈ email_cols columns ↔ c ∈ columns ∧ keywordIn c "email" = true) ∧
    (c ∈ date_cols columns ↔ c ∈ columns ∧ keywordIn c "date" = true) ∧
    (c ∈ website_cols columns ↔ c ∈ columns ∧ keywordIn c "website" = true) ∧
    (c ∈ zip_cols columns ↔ c ∈ columns ∧ keywordIn c "zip" = true) := by
  refine ⟨?_, ?_, ?_, ?_, ?_⟩ <;>
    simp [phone_cols, email_cols, date_cols, website_cols, zip_cols,
      List.mem_filter]

/-- C2 (code divergence): `clean_phones` records "Valid Phone" in
`validations_added` but never assigns the flag column, so for the table with
the single phone column "Phone" the cleaned DataFrame still has exactly the
columns ["Phone"] — no "Valid Phone" column — whatever the phone library
does. -/
theorem c2_phone_flag_column_missing {P : Type} (lib : PhoneLib P) :
    colNames ((clean_phones lib
        (init [("Phone", [Cell.str "not-a-phone"])])).df) = ["Phone"] ∧
      "Valid Phone" ∉
        colNames ((clean_phones lib
          (init [("Phone", [Cell.str "not-a-phone"])])).df) ∧
      "Valid Phone" ∈ (clean_phones lib
        (init [("Phone", [Cell.str "not-a-phone"])])).summary.validations_added := by
  have hpc : phone_cols ["Phone"] = ["Phone"] := by decide
  refine ⟨?_, ?_, ?_⟩ <;>
    simp [init, clean_phones, hpc, cleanPhoneStep, setCol, colNames, getCol,
      hasCol, numRows]

/-- Keep-first deduplication yields a sublist of the input rows. -/
theorem dropDupBy_sublist (key : List Cell → List Cell)
    (seen : List (List Cell)) (rows : List (List Cell)) :
    (dropDupBy key seen rows).Sublist rows := by
  induction rows generalizing seen with
  | nil => simp [dropDupBy]
  | cons r rs ih =>
      by_cases h : key r ∈ seen
      · simp only [dropDupBy, if_pos h]
        exact (ih seen).cons r
      · simp only [dropDupBy, if_neg h]
        exact (ih (key r :: seen)).cons₂ r

/-- The keys of the kept rows are pairwise distinct and disjoint from the keys
already seen. -/
theorem dropDupBy_keys_nodup (key : List Cell → List Cell)
    (rows : List (List Cell)) (seen : List (List Cell)) :
    ((dropDupBy key seen rows).map key).Nodup ∧
      ∀ x ∈ (dropDupBy key seen rows).map key, x ∉ seen := by
  induction rows generalizing seen with
  | nil => simp [dropDupBy]
  | cons r rs ih =>
      by_cases h : key r ∈ seen
      · simpa only [dropDupBy, if_pos h] using ih seen
      · simp only [dropDupBy, if_neg h, List.map_cons, List.nodup_cons,
          List.mem_cons]
        have hrest := ih (key r :: seen)
        refine ⟨⟨fun hx => ?_, hrest.1⟩, ?_⟩
        · exact (hrest.2 _ hx) (List.mem_cons_self _ _)
        · rintro x (rfl | hx)
          · exact h
          · exact fun hs => (hrest.2 _ hx) (List.mem_cons_of_mem _ hs)

/-- Every input row's key appears among the kept rows' keys (or was already
seen). -/
theorem dropDupBy_covers (key : List Cell → List Cell)
    (rows : List (List Cell)) (seen : List (List Cell)) :
    ∀ r ∈ rows, key r ∈ seen ∨ key r ∈ (dropDupBy key seen rows).map key := by
  induction rows generalizing seen with
  | nil => simp
  | cons r rs ih =>
      intro r' hr'
      rcases List.mem_cons.mp hr' with rfl | hmem
      · by_cases h : key r' ∈ seen
        · exact Or.inl h
        · simp only [dropDupBy, if_neg h, List.map_cons]
          exact Or.inr (List.mem_cons_self _ _)
      · by_cases h : key r ∈ seen
        · simpa only [dropDupBy, if_pos h] using ih seen r' hmem
        · simp only [dropDupBy, if_neg h, List.map_cons]
          rcases ih (key r :: seen) r' hmem with hseen | hkept
          · rcases List.mem_cons.mp hseen with heq | hseen
            · exact Or.inr (List.mem_cons.mpr (Or.inl heq))
            · exact Or.inl hseen
          · exact Or.inr (List.mem_cons.mpr (Or.inr hkept))

/-- The guard `subset and subset in self.df.columns` evaluates to true only
for a truthy single column name present among the columns. -/
theorem subsetGuard_ok_true (cols : List String) :
    ∀ sub : PySubset, subsetGuard cols sub = Except.ok true →
      ∃ s, sub = PySubset.strV s ∧ s ∈ cols := by
  intro sub hg
  cases sub with
  | noneV => simp [subsetGuard, subsetTruthy] at hg
  | strV s =>
      refine ⟨s, rfl, ?_⟩
      by_cases hs : (s == "") = true
      · simp [subsetGuard, subsetTruthy, hs] at hg
      · simp only [subsetGuard, subsetTruthy, hs, Bool.not_false,
          if_true, subsetInCols] at hg
        simpa using hg
  | listV ss =>
      by_cases hne : ss.isEmpty <;>
        simp [subsetGuard, subsetTruthy, subsetInCols, hne] at hg

/-- C3 (counterexample): on the table with columns ["id", "x"] and rows
[["1","a"], ["1","b"]], the identifier role (as the spec defines roles, by
keyword) is nonempty, and the spec's contract would drop the second row
(duplicate on "id"); the implementation's `drop_duplicates`, as invoked by the
pipeline (no `subset`), keeps both rows and records 0 dropped, because it
never consults identifier-role columns. -/
theorem c3_counterexample :
    specIdentifierCols ["id", "x"] = ["id"] ∧
      (specDedupIdentifier tC3).length = 1 ∧
      drop_duplicates PySubset.noneV tC3
        = Except.ok
            (⟨["id", "x"],
              [[Cell.str "1", Cell.str "a"],
               [Cell.str "1", Cell.str "b"]]⟩, 0) := by
  refine ⟨by decide, by decide, by decide⟩

/-- C3 (amended): `drop_duplicates` keys on its explicit `subset` argument,
never on identifier-role columns (no identifier role exists).  Whenever the
guard evaluates without raising — to true exactly when `subset` is a truthy
single column name present among the columns, keying on that one column, and
to false for the pipeline's default no-subset call, keying on full-row
identity — the result keeps a first-occurrence subselection of the rows (an
ordered sublist, kept keys pairwise distinct, every input row's key
represented, column names unchanged) and records `duplicate_rows_dropped`
equal to the row count before minus the row count after. -/
theorem c3_amended (t : RTable) (sub : PySubset) (g : Bool)
    (hg : subsetGuard t.cols sub = Except.ok g) :
    drop_duplicates sub t
        = Except.ok
            (⟨t.cols, dropDupBy (pandasKey t.cols sub g) [] t.rows⟩,
              (t.rows.length : Int)
                - ((dropDupBy (pandasKey t.cols sub g) [] t.rows).length : Int)) ∧
      (dropDupBy (pandasKey t.cols sub g) [] t.rows).Sublist t.rows ∧
      ((dropDupBy (pandasKey t.cols sub g) [] t.rows).map
          (pandasKey t.cols sub g)).Nodup ∧
      (∀ r ∈ t.rows,
        pandasKey t.cols sub g r ∈
          (dropDupBy (pandasKey t.cols sub g) [] t.rows).map
            (pandasKey t.cols sub g)) ∧
      (g = true → ∃ s, sub = PySubset.strV s ∧ s ∈ t.cols) := by
  refine ⟨?_, dropDupBy_sublist _ _ _, (dropDupBy_keys_nodup _ _ _).1,
    fun r hr => ?_, fun hgt => subsetGuard_ok_true t.cols sub (hgt ▸ hg)⟩
  · simp only [drop_duplicates, hg]
  · rcases dropDupBy_covers (pandasKey t.cols sub g) t.rows [] r hr with h | h
    · simp at h
    · exact h

/-- C3 (witness): the pipeline's default call on the "id" table evaluates the
guard to false and deduplicates on full rows, keeping both rows. -/
theorem c3_amended_witness :
    subsetGuard tC3.cols PySubset.noneV = Except.ok false ∧
      drop_duplicates PySubset.noneV tC3
        = Except.ok
            (⟨tC3.cols, dropDupBy (pandasKey tC3.cols PySubset.noneV false) []
                tC3.rows⟩,
              (tC3.rows.length : Int)
                - ((dropDupBy (pandasKey tC3.cols PySubset.noneV false) []
                    tC3.rows).length : Int)) ∧
      (dropDupBy (pandasKey tC3.cols PySubset.noneV false) []
          tC3.rows).length = 2 :=
  ⟨by decide,
    (c3_amended tC3 PySubset.noneV false (by decide)).1,
    by decide⟩

/-- C9 (counterexample): on the concrete table, the claim predicts that the
two-column list subset deduplicates on full-row identity like the default
call; instead the membership test hashes the list and `drop_duplicates`
raises `TypeError`, while the default call returns the full-row-deduplicated
table. -/
theorem c9_counterexample :
    drop_duplicates (PySubset.listV ["a", "b"]) tC9
        = Except.error "TypeError: unhashable type: list" ∧
      drop_duplicates PySubset.noneV tC9
        = Except.ok
            (⟨["a", "b"],
              [[Cell.str "1", Cell.str "2"],
               [Cell.str "1", Cell.str "3"]]⟩, 1) := by
  refine ⟨by decide, by decide⟩

/-- C9 (amended): a `subset` argument that is a list of two or more column
names is never deduplicated on: pandas hashes the key before the containment
check, so `subset in self.df.columns` raises `TypeError: unhashable type:
list` and `drop_duplicates` propagates it instead of falling back to full-row
deduplication; and the guard can only succeed when `subset` is a single
column name present among the columns. -/
theorem c9_list_subset_raises (t : RTable) (ss : List String)
    (h : 2 ≤ ss.length) :
    drop_duplicates (PySubset.listV ss) t
        = Except.error "TypeError: unhashable type: list" ∧
      ∀ sub : PySubset, subsetGuard t.cols sub = Except.ok true →
        ∃ s, sub = PySubset.strV s ∧ s ∈ t.cols := by
  refine ⟨?_, subsetGuard_ok_true t.cols⟩
  have hne : ss.isEmpty = false := by
    cases ss with
    | nil => simp at h
    | cons a as => rfl
  simp [drop_duplicates, subsetGuard, subsetTruthy, subsetInCols, hne]

/-- C9 (witness): on the concrete three-row table, the two-element list
subset makes `drop_duplicates` raise the unhashable-type `TypeError`. -/
theorem c9_list_subset_raises_witness :
    2 ≤ (["a", "b"] : List String).length ∧
      drop_duplicates (PySubset.listV ["a", "b"]) tC9
        = Except.error "TypeError: unhashable type: list" :=
  ⟨by decide, (c9_list_subset_raises tC9 ["a", "b"] (by decide)).1⟩

/-- C4 (counterexample): run the pipeline on a one-row table whose single zip
column holds the valid ZIP "12345".  Both the original-invalid and
remaining-invalid counts are 0, yet the finalized health report still contains
the entry "Invalid ZIPs in zip" with Before 0 and After 0 — a both-zero entry
is not omitted. -/
theorem c4_counterexample :
    (validate_zip_codes (init [("zip", [Cell.str "12345"])])).summary.counts =
        [("Original Invalid ZIPs in zip", 0),
         ("Remaining Invalid ZIPs in zip", 0)] ∧
      ("Invalid ZIPs in zip", HealthEntry.mk 0 0 0) ∈
        (get_summary
          (validate_zip_codes (init [("zip", [Cell.str "12345"])]))).health_report := by
  refine ⟨by decide, ?_⟩
  decide

/-- C4 (amended): a health-report entry for a role/column appears iff an
"Original Invalid …" key was recorded for it — i.e. iff that role's validator
ran — regardless of the counts' values; entries whose before and after counts
are both zero are included, not omitted. -/
theorem c4_health_entry_iff_key (counts : List (String × Int)) (k : String)
    (v : Int) (hmem : (k, v) ∈ counts)
    (hk : containsSub k "Original Invalid" = true) :
    replaceStr k "Original " "" ∈ (healthReport counts).map Prod.fst ∧
      ∀ name ∈ (healthReport counts).map Prod.fst,
        ∃ k2 v2, (k2, v2) ∈ counts ∧ containsSub k2 "Original Invalid" = true ∧
          name = replaceStr k2 "Original " "" := by
  constructor
  · unfold healthReport
    rw [List.map_map]
    exact List.mem_map.mpr ⟨(k, v), List.mem_filter.mpr ⟨hmem, hk⟩, rfl⟩
  · intro name hname
    rcases List.mem_map.mp hname with ⟨entry, hentry, hfst⟩
    rcases List.mem_map.mp hentry with ⟨kv, hkv, hkv2⟩
    have hmemf := List.mem_filter.mp hkv
    exact ⟨kv.1, kv.2, hmemf.1, hmemf.2, by
      subst hkv2
      simp [healthReport] at hfst
      exact hfst.symm⟩

/-- C4 (witness): with the concrete summary counts recorded by the zip
validator for an all-valid column, the "Original Invalid ZIPs in zip" key is
present (with value 0) and the amended theorem places "Invalid ZIPs in zip"
in the health report. -/
theorem c4_health_entry_iff_key_witness :
    (("Original Invalid ZIPs in zip", (0 : Int)) ∈
        [("Original Invalid ZIPs in zip", (0 : Int)),
         ("Remaining Invalid ZIPs in zip", (0 : Int))]) ∧
      containsSub "Original Invalid ZIPs in zip" "Original Invalid" = true ∧
      "Invalid ZIPs in zip" ∈
        (healthReport
          [("Original Invalid ZIPs in zip", (0 : Int)),
           ("Remaining Invalid ZIPs in zip", (0 : Int))]).map Prod.fst :=
  ⟨by decide, by decide, by
    have h := (c4_health_entry_iff_key
      [("Original Invalid ZIPs in zip", (0 : Int)),
       ("Remaining Invalid ZIPs in zip", (0 : Int))]
      "Original Invalid ZIPs in zip" 0 (by decide) (by decide)).1
    simpa using h⟩

/-- Rounding zero to two decimals yields zero. -/
theorem round2_zero : round2 0 = 0 := by
  norm_num [round2]

/-- C5: `get_summary` guards both divisions.  When the original row count is
0, `percent_rows_dropped` is 0 (the `if original_rows` branch, no division is
taken); and every health-report entry whose Before count is 0 has % Change 0
(the `if before` branch). -/
theorem c5_guarded_divisions (st : State)
    (h : st.summary.original_shape.1 = 0) :
    (get_summary st).percent_rows_dropped = 0 ∧
      ∀ name e, (name, e) ∈ (get_summary st).health_report → e.before = 0 →
        e.change = 0 := by
  constructor
  · simp [get_summary, h, round2_zero]
  · intro name e hmem hb
    simp only [get_summary] at hmem
    rcases List.mem_map.mp hmem with ⟨kv, _, hkv⟩
    have he : e = ⟨kv.2, ((st.summary.counts.lookup
        (replaceStr kv.1 "Original" "Remaining")).getD 0),
        if kv.2 ≠ 0 then
          round2 (((kv.2 : ℚ) - (((st.summary.counts.lookup
            (replaceStr kv.1 "Original" "Remaining")).getD 0 : Int) : ℚ)) /
              (kv.2 : ℚ) * 100)
        else 0⟩ := by
      have := congrArg Prod.snd hkv
      simpa using this.symm
    have hb2 : kv.2 = 0 := by
      have := congrArg HealthEntry.before he
      simp at this
      omega
    rw [he]
    simp [hb2]

/-- C5 (witness): on the empty table the original row count is 0 and
`percent_rows_dropped` comes out 0. -/
theorem c5_guarded_divisions_witness :
    (init []).summary.original_shape.1 = 0 ∧
      (get_summary (init [])).percent_rows_dropped = 0 :=
  ⟨rfl, (c5_guarded_divisions (init []) rfl).1⟩

/-- Reading any column of the in-place replacement of column `n`. -/
theorem getCol_map_set (ts : STable) (n : String) (v : List Cell)
    (c : String) :
    getCol (ts.map (fun p => if p.1 = n then (p.1, v) else p)) c
      = if c = n then (if hasCol ts n then v else getCol ts c)
        else getCol ts c := by
  induction ts with
  | nil => simp [getCol, hasCol]
  | cons p ts ih =>
      obtain ⟨m, w⟩ := p
      simp only [List.map_cons]
      by_cases hmn : m = n
      · subst hmn
        rw [show (if (m, w).1 = m then ((m, w).1, v) else (m, w)) = (m, v)
          from if_pos rfl]
        by_cases hc : m = c
        · subst hc
          simp [getCol, hasCol]
        · have hcn : ¬c = m := fun h => hc h.symm
          simp [getCol, hasCol, hc, hcn, ih]
      · rw [show (if (m, w).1 = n then ((m, w).1, v) else (m, w)) = (m, w)
          from if_neg hmn]
        by_cases hc : m = c
        · subst hc
          simp [getCol, hasCol, hmn]
        · simp [getCol, hasCol, hc, hmn, ih]

/-- Reading a column of an appended single-column table. -/
theorem getCol_append_single (ts : STable) (n : String) (v : List Cell)
    (c : String) :
    getCol (ts ++ [(n, v)]) c
      = if hasCol ts c then getCol ts c
        else if c = n then v else [] := by
  induction ts with
  | nil => simp [getCol, hasCol, eq_comm]
  | cons p ts ih =>
      obtain ⟨m, w⟩ := p
      by_cases hmc : m = c
      · subst hmc
        simp [getCol, hasCol]
      · simp [getCol, hasCol, ih, hmc]

/-- An absent column reads as the empty cell list. -/
theorem getCol_eq_nil_of_not_hasCol (ts : STable) (c : String)
    (h : hasCol ts c = false) : getCol ts c = [] := by
  induction ts with
  | nil => simp [getCol]
  | cons p ts ih =>
      obtain ⟨m, w⟩ := p
      simp only [hasCol, Bool.or_eq_false_iff, decide_eq_false_iff_not] at h
      simp [getCol, h.1, ih h.2]

/-- Reading a column after `setCol`: the assigned column reads back the new
values, every other column is untouched. -/
theorem getCol_setCol (t : STable) (n : String) (v : List Cell) (c : String) :
    getCol (setCol t n v) c = if c = n then v else getCol t c := by
  unfold setCol
  by_cases hs : hasCol t n
  · rw [if_pos hs, getCol_map_set]
    simp [hs]
  · rw [if_neg hs, getCol_append_single]
    by_cases hc : c = n
    · subst hc
      have := getCol_eq_nil_of_not_hasCol t c (by simpa using hs)
      simp [this, Bool.not_eq_true] at *
      simp [hs, this]
    · by_cases hh : hasCol t c
      · simp [hh, hc]
      · have := getCol_eq_nil_of_not_hasCol t c (by simpa using hh)
        simp [hh, hc, this]

/-- Method `clean_phones` leaves the phone role set unchanged. -/
theorem foldl_cleanPhone_phoneCols {P : Type} (lib : PhoneLib P)
    (cols : List String) (st : State) :
    (cols.foldl (cleanPhoneStep lib) st).phoneCols = st.phoneCols := by
  induction cols generalizing st with
  | nil => rfl
  | cons x xs ih => simpa using ih (cleanPhoneStep lib st x)

/-- Column values after the `clean_phones` loop: every column in the scanned
list is mapped through `clean_number` (once, thanks to idempotence), every
other column is untouched. -/
theorem foldl_cleanPhone_getCol {P : Type} (lib : PhoneLib P)
    (hf : ∀ c, clean_number lib (clean_number lib c) = clean_number lib c)
    (cols : List String) (st : State) (c : String) :
    getCol (cols.foldl (cleanPhoneStep lib) st).df c
      = if c ∈ cols then (getCol st.df c).map (clean_number lib)
        else getCol st.df c := by
  induction cols generalizing st with
  | nil => simp
  | cons x xs ih =>
      have hstep : ∀ d, getCol (cleanPhoneStep lib st x).df d
          = if d = x then (getCol st.df x).map (clean_number lib)
            else getCol st.df d := by
        intro d
        simp only [cleanPhoneStep]
        exact getCol_setCol _ _ _ _
      simp only [List.foldl_cons]
      rw [ih (cleanPhoneStep lib st x)]
      by_cases hcx : c = x
      · subst hcx
        by_cases hcxs : c ∈ xs
        · simp only [if_pos hcxs, hstep, if_pos rfl, List.mem_cons,
            true_or, if_true, List.map_map]
          exact List.map_congr_left (fun a _ => hf a)
        · simp [hcxs, hstep]
      · by_cases hcxs : c ∈ xs <;> simp [hcx, hcxs, hstep, List.mem_cons]

/-- Under the round-trip hypotheses, `clean_number` is idempotent on cells. -/
theorem clean_number_idem {P : Type} (lib : PhoneLib P)
    (h1 : lib.parse "nan" = none)
    (h2 : ∀ p, lib.is_possible_number p = true → lib.is_valid_number p = true →
      ∃ q, lib.parse (lib.format_E164 p) = some q ∧
        lib.is_possible_number q = true ∧ lib.is_valid_number q = true ∧
        lib.format_E164 q = lib.format_E164 p)
    (c : Cell) :
    clean_number lib (clean_number lib c) = clean_number lib c := by
  cases hp : lib.parse (strForm c) with
  | none =>
      have hc : clean_number lib c = Cell.na := by simp [clean_number, hp]
      rw [hc]
      simp [clean_number, strForm, h1, hc]
  | some p =>
      by_cases hv : (lib.is_possible_number p && lib.is_valid_number p) = true
      · have hc : clean_number lib c = Cell.str (lib.format_E164 p) := by
          simp [clean_number, hp, hv]
        have hv2 := hv
        simp only [Bool.and_eq_true] at hv2
        obtain ⟨hpos, hval⟩ := hv2
        obtain ⟨q, hq1, hq2, hq3, hq4⟩ := h2 p hpos hval
        rw [hc]
        simp [clean_number, strForm, hq1, hq2, hq3, hq4, hc]
      · have hc : clean_number lib c = Cell.na := by
          simp [clean_number, hp, hv]
        rw [hc]
        simp [clean_number, strForm, h1, hc]

/-- C6: phone normalization is idempotent on the table.  Under the properties
of the phone library that the claim assumes — `str(nan)` does not parse, and
an E.164-formatted valid number re-parses as possible and valid and re-formats
to itself — running `clean_phones` twice leaves every column of the DataFrame
with exactly the cell values of running it once. -/
theorem c6_clean_phones_idempotent {P : Type} (lib : PhoneLib P)
    (h1 : lib.parse "nan" = none)
    (h2 : ∀ p, lib.is_possible_number p = true → lib.is_valid_number p = true →
      ∃ q, lib.parse (lib.format_E164 p) = some q ∧
        lib.is_possible_number q = true ∧ lib.is_valid_number q = true ∧
        lib.format_E164 q = lib.format_E164 p)
    (st : State) (c : String) :
    getCol (clean_phones lib (clean_phones lib st)).df c
      = getCol (clean_phones lib st).df c := by
  have hf := clean_number_idem lib h1 h2
  have e1 : clean_phones lib (clean_phones lib st)
      = st.phoneCols.foldl (cleanPhoneStep lib) (clean_phones lib st) := by
    unfold clean_phones
    rw [foldl_cleanPhone_phoneCols]
  rw [e1, foldl_cleanPhone_getCol lib hf st.phoneCols (clean_phones lib st) c]
  unfold clean_phones
  rw [foldl_cleanPhone_getCol lib hf st.phoneCols st c]
  by_cases h : c ∈ st.phoneCols
  · simp only [if_pos h, List.map_map]
    exact List.map_congr_left (fun a _ => hf a)
  · simp [h]

/-- A concrete miniature phone library used to witness the idempotence
hypotheses: exactly the string "+1234" parses, every parsed number is
possible and valid, and formatting always yields "+1234". -/
def toyPhoneLib : PhoneLib Unit :=
  { parse := fun s => if s = "+1234" then some () else none
    is_possible_number := fun _ => true
    is_valid_number := fun _ => true
    format_E164 := fun _ => "+1234" }

/-- C6 (witness): the hypotheses hold for the miniature library, and cleaning
the concrete phone column ["xyz", NaN, "+1234"] twice equals cleaning it
once. -/
theorem c6_clean_phones_idempotent_witness :
    toyPhoneLib.parse "nan" = none ∧
      getCol (clean_phones toyPhoneLib (clean_phones toyPhoneLib
          (init [("Phone", [Cell.str "xyz", Cell.na, Cell.str "+1234"])]))).df
          "Phone"
        = getCol (clean_phones toyPhoneLib
            (init [("Phone", [Cell.str "xyz", Cell.na, Cell.str "+1234"])])).df
            "Phone" := by
  have hx : toyPhoneLib.parse "+1234" = some () := by decide
  exact ⟨by decide,
    c6_clean_phones_idempotent toyPhoneLib (by decide)
      (fun p hp hv => ⟨(), hx, rfl, rfl, rfl⟩)
      (init [("Phone", [Cell.str "xyz", Cell.na, Cell.str "+1234"])]) "Phone"⟩

/-- C8 (counterexample): Python's `$` also matches just before a trailing
newline, so `re.match(r'^\d{5}$', "12345\n")` succeeds: the cell "12345\n" of
a zip column receives validation flag true although its string form is not
exactly 5 decimal digits. -/
theorem c8_counterexample :
    specZipValid "12345\n" = false ∧
      getCol (validate_zip_codes
          (init [("zip", [Cell.str "12345\n"])])).df "Valid zip"
        = [Cell.bool true] := by
  refine ⟨by decide, by decide⟩

/-- The regex semantics on a character list, phrased through the two spec-side
predicates. -/
theorem zipMatchCh_characterization (cs : List Char) :
    zipMatchCh cs
      = ((cs.length == 5 && cs.all Char.isDigit) ||
         (cs.length == 6 && (cs.take 5).all Char.isDigit &&
           cs.getLast? == some '\n')) := by
  rcases cs with _ | ⟨a, _ | ⟨b, _ | ⟨c, _ | ⟨d, _ | ⟨e, _ | ⟨f, _ | ⟨g, rest⟩⟩⟩⟩⟩⟩⟩
  · rfl
  · rfl
  · rfl
  · rfl
  · rfl
  · simp [zipMatchCh, List.all, Bool.and_assoc]
  · simp [zipMatchCh, List.all, Bool.and_assoc]
  · simp only [zipMatchCh, List.length_cons]
    have h5 : ((rest.length + 7 : Nat) == 5) = false := by
      simp
    have h6 : ((rest.length + 7 : Nat) == 6) = false := by
      simp
    simp [h5, h6]

/-- C8 (amended): a zip-role cell's validation flag is true iff its string
form is exactly 5 decimal digits OR 5 decimal digits followed by a single
trailing newline; "12345" is valid while "1234" and "ABCDE" are invalid. -/
theorem c8_zip_flag_characterization (s : String) :
    (zipFlagVal (Cell.str s) = (specZipValid s || zipTrailingNewline s)) ∧
      zipFlagVal (Cell.str "12345") = true ∧
      zipFlagVal (Cell.str "1234") = false ∧
      zipFlagVal (Cell.str "ABCDE") = false := by
  refine ⟨?_, by decide, by decide, by decide⟩
  simpa [zipFlagVal, zipMatch, strForm, specZipValid, zipTrailingNewline]
    using zipMatchCh_characterization s.toList

/-- Counting one value is bounded by counting any predicate it satisfies. -/
theorem count_na_le_countP (cells : List Cell) (p : Cell → Bool)
    (hp : p Cell.na = true) :
    cells.count Cell.na ≤ cells.countP p := by
  rw [List.count_eq_countP]
  refine List.countP_mono_left (fun a _ h => ?_)
  have ha : a = Cell.na := by simpa using h
  rw [ha]
  exact hp

/-- C10 (counterexample): the claim says a missing cell is included in the
remaining-invalid count of email and website validation.  In fact a missing
cell gets the validator's falsy failure object as its flag, the flag column
then has object dtype, and unary `~` raises `TypeError`, so no
remaining-invalid count is produced at all: on the one-cell column [NaN] both
remaining-invalid expressions raise. -/
theorem c10_counterexample :
    emailFlagVal (fun s => s == "a@b.com") Cell.na = false ∧
      email_remaining (fun s => s == "a@b.com") [Cell.na]
        = Except.error "TypeError: bad operand type for unary ~" ∧
      url_remaining (fun s => s == "http://x.com") [Cell.na]
        = Except.error "TypeError: bad operand type for unary ~" := by
  refine ⟨by decide, by decide, by decide⟩

/-- C10 (amended): missing cells are never skipped — `NaN` is stringified to
"nan", which has no "@", no "http" scheme, and is not 5 digits — so in all
three validators a missing cell's validation flag is false (falsy) and it is
counted in the original-invalid tally; for ZIP it is also counted in the
remaining-invalid tally, but for email and website the presence of any
missing cell makes the remaining-invalid expression
`(~self.df[validation_col]).sum()` raise `TypeError` (the falsy failure
object has no `__invert__`) instead of counting it. -/
theorem c10_missing_cells_flagged (emailV urlV : String → Bool)
    (hE : emailV "nan" = false) (hU : urlV "nan" = false)
    (cells : List Cell) :
    emailFlagVal emailV Cell.na = false ∧
      urlFlagVal urlV Cell.na = false ∧
      zipFlagVal Cell.na = false ∧
      cells.count Cell.na ≤ email_orig_invalid cells ∧
      cells.count Cell.na ≤ url_orig_invalid cells ∧
      cells.count Cell.na ≤ zip_orig_invalid cells ∧
      cells.count Cell.na ≤ zip_remaining cells ∧
      (Cell.na ∈ cells →
        email_remaining emailV cells
            = Except.error "TypeError: bad operand type for unary ~" ∧
          url_remaining urlV cells
            = Except.error "TypeError: bad operand type for unary ~") := by
  have hstrip : stripStr "nan" = "nan" := by decide
  have hflagE : emailFlagVal emailV Cell.na = false := by
    simp [emailFlagVal, strForm, hstrip, hE]
  have hflagU : urlFlagVal urlV Cell.na = false := by
    simp [urlFlagVal, strForm, hstrip, hU]
  have hflagZ : zipFlagVal Cell.na = false := by decide
  refine ⟨hflagE, hflagU, hflagZ, count_na_le_countP _ _ (by decide),
    count_na_le_countP _ _ (by decide), count_na_le_countP _ _ (by decide),
    ?_, fun hna => ⟨?_, ?_⟩⟩
  · rw [zip_remaining, List.countP_map]
    exact count_na_le_countP _ _ (by simp [Function.comp, hflagZ])
  · have hall : ((cells.map (emailFlagVal emailV)).all (fun b => b)) = false := by
      rcases hb : (cells.map (emailFlagVal emailV)).all (fun b => b) with _ | _
      · rfl
      · have := (List.all_eq_true.mp hb) false
          (List.mem_map.mpr ⟨Cell.na, hna, hflagE⟩)
        simp at this
    simp [email_remaining, hall]
  · have hall : ((cells.map (urlFlagVal urlV)).all (fun b => b)) = false := by
      rcases hb : (cells.map (urlFlagVal urlV)).all (fun b => b) with _ | _
      · rfl
      · have := (List.all_eq_true.mp hb) false
          (List.mem_map.mpr ⟨Cell.na, hna, hflagU⟩)
        simp at this
    simp [url_remaining, hall]

/-- C10 (witness): for a concrete strict validator pair and the two-cell
column [NaN, "a@b.com"], the hypotheses hold, the missing cell is counted in
the email original-invalid tally, and the email remaining-invalid expression
raises. -/
theorem c10_missing_cells_flagged_witness :
    (fun s => s == "a@b.com") "nan" = false ∧
      (fun s => s == "http://x.com") "nan" = false ∧
      Cell.na ∈ [Cell.na, Cell.str "a@b.com"] ∧
      [Cell.na, Cell.str "a@b.com"].count Cell.na ≤
        email_orig_invalid [Cell.na, Cell.str "a@b.com"] ∧
      email_remaining (fun s => s == "a@b.com") [Cell.na, Cell.str "a@b.com"]
        = Except.error "TypeError: bad operand type for unary ~" :=
  ⟨by decide, by decide, by decide,
    (c10_missing_cells_flagged (fun s => s == "a@b.com")
      (fun s => s == "http://x.com") (by decide) (by decide)
      [Cell.na, Cell.str "a@b.com"]).2.2.2.1,
    ((c10_missing_cells_flagged (fun s => s == "a@b.com")
      (fun s => s == "http://x.com") (by decide) (by decide)
      [Cell.na, Cell.str "a@b.com"]).2.2.2.2.2.2.2 (by decide)).1⟩

/-- The spec's worked numeric column [1, 2, 3, 4, 5, 100]. -/
def exCol7 : List (Option ℚ) := [some 1, some 2, some 3, some 4, some 5, some 100]

/-- C7: IQR outlier detection uses linear-interpolation quantiles.  On the
column [1,2,3,4,5,100]: Q1 = 2.25, Q3 = 4.75, the upper bound
Q3 + 1.5·IQR = 8.5, the cells flagged are exactly [100], the column's outlier
count is 1; and for every numeric table the reported total is the sum of the
per-column outlier counts. -/
theorem c7_iqr_outliers :
    quantileLin exCol7 (1/4) = some (9/4) ∧
      quantileLin exCol7 (3/4) = some (19/4) ∧
      (19/4 : ℚ) + (3/2) * ((19/4 : ℚ) - (9/4 : ℚ)) = 17/2 ∧
      exCol7.filter (isOutlierCell (9/4) (19/4)) = [some 100] ∧
      outlierCount exCol7 = 1 ∧
      ∀ t : NTable,
        totalOutliers (detect_outliers_iqr t)
          = (t.map (fun p => outlierCount p.2)).sum := by
  have hsort : ((exCol7.filterMap id).insertionSort (· ≤ ·))
      = [1, 2, 3, 4, 5, 100] := by
    norm_num [exCol7, List.insertionSort, List.orderedInsert]
  have hq1 : quantileLin exCol7 (1/4) = some (9/4) := by
    have hf : Int.floor ((1/4 : ℚ) * (6 - 1)) = 1 := by
      rw [Int.floor_eq_iff]
      norm_num
    simp only [quantileLin, hsort]
    norm_num [hf]
  have hq3 : quantileLin exCol7 (3/4) = some (19/4) := by
    have hf : Int.floor ((3/4 : ℚ) * (6 - 1)) = 3 := by
      rw [Int.floor_eq_iff]
      norm_num
    simp only [quantileLin, hsort]
    have ht : Int.toNat 3 = 3 := rfl
    norm_num [hf, ht, List.getD]
  refine ⟨hq1, hq3, by norm_num, ?_, ?_, ?_⟩
  · norm_num [exCol7, List.filter, isOutlierCell]
  · simp only [outlierCount, hq1, hq3]
    norm_num [exCol7, List.countP_cons, isOutlierCell]
  · intro t
    induction t with
    | nil => rfl
    | cons p ts ih =>
        by_cases h : outlierCount p.2 > 0
        · simp [detect_outliers_iqr, totalOutliers, h] at ih ⊢
          omega
        · have h0 : outlierCount p.2 = 0 := by omega
          simp [detect_outliers_iqr, totalOutliers, h, h0] at ih ⊢
          exact ih

end SmartPreprocessor
